import Mathlib

/-!
Shallow embedding of the Smart-Diffuser trigger and schedule engine
(src/src/main.cpp) and verification of its specification claims.

Machine integers are modelled as Nat with explicit reduction modulo 2^32
where the source uses `uint32_t` / `unsigned long` (32-bit on ESP8266);
`time_t` and C `int` values are modelled as Int.
-/

/-- 2^32, the modulus of `uint32_t` / `unsigned long` tick arithmetic. -/
def M32 : Nat := 4294967296

/-- Unsigned 32-bit addition, as in `millis() + x` on the ESP8266. -/
def add32 (a b : Nat) : Nat := (a + b) % M32

/-- Unsigned 32-bit multiplication, as in `intervalSeconds * 1000UL`. -/
def mul32 (a b : Nat) : Nat := (a * b) % M32

/-- Unsigned 32-bit subtraction `a - b`, as in `millis() - lastTriggerAt`. -/
def sub32 (a b : Nat) : Nat := (a % M32 + M32 - b % M32) % M32

/-- Reinterpretation of a `uint32_t` value as a signed `long`, as in the
source cast `(long)(millis() - nextIntervalAt)`. -/
def signedOfU32 (x : Nat) : Int :=
  if x % M32 < 2147483648 then (x % M32 : Int) else (x % M32 : Int) - (M32 : Int)

/-- Truncation of a C `long` value to `uint32_t`, as in
`uint32_t s = msg.substring(...).toInt()`. -/
def toUInt32N (n : Int) : Nat := (n % (M32 : Int)).toNat

-- ============ Arduino String primitives used by the source ============

/-- `tolower` on an ASCII character, as used by Arduino
`String.equalsIgnoreCase`. -/
def lowerChar (c : Char) : Char :=
  if 'A' ≤ c ∧ c ≤ 'Z' then Char.ofNat (c.toNat + 32) else c

/-- C `isspace`: space and the control characters 9..13. -/
def isSpaceChar (c : Char) : Bool := c == ' ' || (9 ≤ c.toNat && c.toNat ≤ 13)

/-- Arduino `String.trim()`: strip leading and trailing whitespace. -/
def trimL (l : List Char) : List Char :=
  ((l.dropWhile isSpaceChar).reverse.dropWhile isSpaceChar).reverse

/-- Arduino `String.equalsIgnoreCase`. -/
def eqIgnoreCaseL : List Char → List Char → Bool
  | [], [] => true
  | a :: as_, b :: bs => (lowerChar a == lowerChar b) && eqIgnoreCaseL as_ bs
  | _, _ => false

/-- Arduino `String.startsWith` (case-sensitive). -/
def startsWithL : List Char → List Char → Bool
  | _, [] => true
  | [], _ :: _ => false
  | a :: as_, p :: ps => (a == p) && startsWithL as_ ps

/-- Digit accumulation of C `atol` after sign handling. -/
def digitsVal : List Char → Nat → Nat
  | [], acc => acc
  | c :: cs, acc =>
    if '0' ≤ c ∧ c ≤ '9' then digitsVal cs (acc * 10 + (c.toNat - 48)) else acc

/-- Arduino `String.toInt()` (C `atol`): skip leading whitespace, optional
sign, then leading digits; 0 when no digits. Modelled with exact integer
arithmetic (the claims only involve values far below `long` overflow). -/
def atolL (l : List Char) : Int :=
  match l.dropWhile isSpaceChar with
  | '-' :: rest => -(digitsVal rest 0 : Int)
  | '+' :: rest => (digitsVal rest 0 : Int)
  | l1 => (digitsVal l1 0 : Int)

/-- Arduino `String.indexOf(char)`: first index, or -1. -/
def indexOfL (c : Char) : List Char → Int
  | [] => -1
  | a :: as_ =>
    if a == c then 0
    else
      let r := indexOfL c as_
      if r < 0 then -1 else r + 1

/-- `parseTimeToMinutes` from the source: expects "HH:MM", returns
`hh*60+mm`, or -1 when too short, colon missing, or out of range. -/
def parseTimeToMinutes (s : String) : Int :=
  let l := s.toList
  if l.length < 4 then -1
  else
    let colon := indexOfL ':' l
    if colon < 0 then -1
    else
      let hh := atolL (l.take colon.toNat)
      let mm := atolL (l.drop (colon.toNat + 1))
      if hh < 0 ∨ hh > 23 ∨ mm < 0 ∨ mm > 59 then -1 else hh * 60 + mm

-- ============ Pulse Trigger State Machine ============

/-- An observable edge on the physical output. -/
inductive Edge
  | assert
  | deassert
deriving DecidableEq, Repr

/-- Runtime state of the pulse machine: `triggerInProgress` and
`lastTriggerAt` from the source globals. -/
structure PulseSt where
  triggerInProgress : Bool
  lastTriggerAt : Nat
deriving DecidableEq, Repr

/-- `triggerPulse()` from the source: no-op while a pulse is in progress,
otherwise record `millis()` and drive the output to its active level. -/
def triggerPulse (now : Nat) (s : PulseSt) : PulseSt × List Edge :=
  if s.triggerInProgress = true then (s, [])
  else ({ triggerInProgress := true, lastTriggerAt := now }, [Edge.assert])

/-- The pulse-completion fragment of `loop()`: when active and
`millis() - lastTriggerAt >= triggerDurationMs` (unsigned 32-bit
subtraction), drive the output inactive and clear the flag. -/
def pulseUpdate (now dur : Nat) (s : PulseSt) : PulseSt × List Edge :=
  if s.triggerInProgress = true ∧ dur ≤ sub32 now s.lastTriggerAt then
    ({ s with triggerInProgress := false }, [Edge.deassert])
  else (s, [])

-- ============ Engine state (config + schedule globals) ============

/-- The engine state the claims are about: interval configuration, the
interval deadline, the schedule list with its parallel fired-today flags,
and the schedule evaluator clock state. -/
structure EngineSt where
  intervalSeconds : Nat
  intervalEnabled : Bool
  nextIntervalAt : Nat
  lastTimeCheck : Int
  lastDayOfYear : Int
  scheduleTimes : List String
  scheduleFiredToday : List Bool
deriving DecidableEq, Repr

/-- Startup defaults of the source globals and `AppConfig`. -/
def defaultEngineSt : EngineSt :=
  { intervalSeconds := 0
    intervalEnabled := false
    nextIntervalAt := 0
    lastTimeCheck := 0
    lastDayOfYear := -1
    scheduleTimes := []
    scheduleFiredToday := [] }

-- ============ Interval Scheduler ============

/-- The interval-handling fragment of `loop()`: when enabled with a
positive period, arm an unset deadline from the current tick, and when
`(long)(millis() - nextIntervalAt) >= 0` fire and re-arm by adding one
period to the previous deadline. The Bool is the fire request. -/
def intervalStep (now : Nat) (st : EngineSt) : EngineSt × Bool :=
  if st.intervalEnabled = true ∧ 0 < st.intervalSeconds then
    if st.nextIntervalAt = 0 then
      ({ st with nextIntervalAt := add32 now (mul32 st.intervalSeconds 1000) }, false)
    else if 0 ≤ signedOfU32 (sub32 now st.nextIntervalAt) then
      ({ st with nextIntervalAt := add32 st.nextIntervalAt (mul32 st.intervalSeconds 1000) }, true)
    else (st, false)
  else (st, false)

-- ============ Daily Schedule Evaluator ============

/-- Local broken-down time, the output of `getLocalTimeBrokenDown`
(`tm_yday`, `tm_hour`, `tm_min`, `tm_sec`); the conversion itself is the
external Clock Adapter (`gmtime_r`), so the evaluator is parameterized by
its result. -/
structure TmLocal where
  yday : Int
  hour : Int
  minute : Int
  sec : Int
deriving DecidableEq, Repr

/-- The per-entry firing loop of the schedule fragment of `loop()`:
for each entry, if it parses, its flag is clear, and it equals the current
minute, fire and set the flag. Returns updated flags and the number of
fire requests. The source indexes both arrays with one counter, so a
flags list shorter than the entry list is out of contract (out-of-bounds
in the source); the model stops at the shorter list. -/
def fireScan (cm : Int) : List String → List Bool → List Bool × Nat
  | t :: ts, f :: fs =>
    let sm := parseTimeToMinutes t
    if 0 ≤ sm ∧ f = false ∧ sm = cm then
      let r := fireScan cm ts fs
      (true :: r.1, r.2 + 1)
    else
      let r := fireScan cm ts fs
      (f :: r.1, r.2)
  | [], fs => (fs, 0)
  | _ :: _, [] => ([], 0)

/-- The schedule-handling fragment of `loop()`: guarded by
`now_utc != lastTimeCheck`; on a new day-of-year reset all flags
(`resetScheduleFlagsForNewDay`); at local second 0 run the firing loop.
Returns the new state and the number of fire requests. -/
def scheduleStep (nowUtc : Int) (tm : TmLocal) (st : EngineSt) : EngineSt × Nat :=
  if nowUtc = st.lastTimeCheck then (st, 0)
  else
    let st1 := { st with lastTimeCheck := nowUtc }
    let st2 :=
      if tm.yday = st1.lastDayOfYear then st1
      else
        { st1 with
          scheduleFiredToday := List.replicate st1.scheduleTimes.length false
          lastDayOfYear := tm.yday }
    if tm.sec = 0 then
      let currentMin := tm.hour * 60 + tm.minute
      let r := fireScan currentMin st2.scheduleTimes st2.scheduleFiredToday
      ({ st2 with scheduleFiredToday := r.1 }, r.2)
    else (st2, 0)

-- ============ Command Dispatcher (mqttCallback) ============

/-- `mqttCallback` from the source, as a pure function of the payload
text: trim, then match TRIGGER/"1" (ignore-case / exact), the
case-sensitive prefixes INTERVAL: and ADD_SCHEDULE:, and the ignore-case
STOP_INTERVAL and CLEAR_SCHEDULE; anything else falls through unchanged.
The Bool is the `triggerPulse()` request. `saveConfig()` is external
persistence and has no engine-state effect. -/
def mqttCallback (payload : String) (now : Nat) (st : EngineSt) : EngineSt × Bool :=
  let m := trimL payload.toList
  if eqIgnoreCaseL m "TRIGGER".toList = true ∨ m = "1".toList then
    (st, true)
  else if startsWithL m "INTERVAL:".toList = true then
    let s := toUInt32N (atolL (m.drop "INTERVAL:".toList.length))
    if 0 < s then
      ({ st with
          intervalSeconds := s
          intervalEnabled := true
          nextIntervalAt := add32 now (mul32 s 1000) }, false)
    else (st, false)
  else if eqIgnoreCaseL m "STOP_INTERVAL".toList = true then
    ({ st with intervalEnabled := false }, false)
  else if startsWithL m "ADD_SCHEDULE:".toList = true then
    let t := String.mk (trimL (m.drop "ADD_SCHEDULE:".toList.length))
    if 0 ≤ parseTimeToMinutes t then
      let times := st.scheduleTimes ++ [t]
      ({ st with
          scheduleTimes := times
          scheduleFiredToday := List.replicate times.length false }, false)
    else (st, false)
  else if eqIgnoreCaseL m "CLEAR_SCHEDULE".toList = true then
    ({ st with scheduleTimes := [], scheduleFiredToday := [] }, false)
  else (st, false)

-- ============ HTTP handlers (pure engine effect) ============

/-- `handleIntervalPost` from the source: reject when the seconds arg is
missing; otherwise set `intervalSeconds` to the parsed value,
`intervalEnabled` to (checkbox present and value positive), and when
enabled re-arm the deadline from the current tick. -/
def handleIntervalPost (hasSeconds : Bool) (secondsArg : String) (hasEnabled : Bool)
    (now : Nat) (st : EngineSt) : EngineSt :=
  if hasSeconds = false then st
  else
    let s := toUInt32N (atolL secondsArg.toList)
    let st1 := { st with intervalSeconds := s, intervalEnabled := hasEnabled && decide (0 < s) }
    if st1.intervalEnabled = true then
      { st1 with nextIntervalAt := add32 now (mul32 s 1000) }
    else st1

/-- `handleScheduleAdd` from the source: reject a missing or unparsable
time arg; otherwise append the entry and rebuild the flags all-false. -/
def handleScheduleAdd (hasTime : Bool) (t : String) (st : EngineSt) : EngineSt :=
  if hasTime = false then st
  else if parseTimeToMinutes t < 0 then st
  else
    let times := st.scheduleTimes ++ [t]
    { st with
        scheduleTimes := times
        scheduleFiredToday := List.replicate times.length false }

/-- `handleScheduleRemove` from the source: reject a missing or
out-of-range index; otherwise erase the entry and rebuild the flags
all-false. -/
def handleScheduleRemove (hasIdx : Bool) (idxArg : String) (st : EngineSt) : EngineSt :=
  if hasIdx = false then st
  else
    let idx := atolL idxArg.toList
    if idx < 0 ∨ (st.scheduleTimes.length : Int) ≤ idx then st
    else
      let times := st.scheduleTimes.eraseIdx idx.toNat
      { st with
          scheduleTimes := times
          scheduleFiredToday := List.replicate times.length false }

-- ============ Config loading (interval fields) ============

/-- The interval fields of `loadConfig` from the source:
`config.intervalSeconds = doc["intervalSeconds"] | config.intervalSeconds`
and likewise for `intervalEnabled` — each stored value is taken verbatim
when present, with the prior value as default. -/
def loadConfigInterval (docSeconds : Option Nat) (docEnabled : Option Bool)
    (st : EngineSt) : EngineSt :=
  { st with
      intervalSeconds := docSeconds.getD st.intervalSeconds
      intervalEnabled := docEnabled.getD st.intervalEnabled }

-- ============ Arithmetic helper lemmas ============

/-- Unsigned 32-bit subtraction recovers a true elapsed duration below
2^32 even across a counter wrap. -/
lemma sub32_shift (start e : Nat) (hs : start < M32) (he : e < M32) :
    sub32 ((start + e) % M32) start = e := by
  simp only [sub32, M32] at *
  omega

/-- The signed reading of `now - (now + d)` is negative for any positive
offset `d` up to 2^31: a freshly armed deadline is never already due. -/
lemma signed_sub32_add_right (now d : Nat) (h1 : 0 < d) (h2 : d ≤ 2147483648) :
    signedOfU32 (sub32 now (add32 now d)) < 0 := by
  simp only [signedOfU32, sub32, add32, M32] at *
  split <;> omega

-- ============ Claims ============

/-- C1: firing while a pulse is already active is a no-op: the first
`fire()` produces the single assert edge and records its own tick; an
update and a second `fire()` within `triggerDurationMs` change nothing;
the deassert edge appears exactly when the duration has elapsed since the
FIRST call, and afterwards further updates emit no edge. -/
theorem C1_fire_while_active_idempotent (s0 : PulseSt) (t1 t2 t3 t4 t5 dur : Nat)
    (h0 : s0.triggerInProgress = false)
    (h2 : sub32 t2 t1 < dur)
    (h3 : dur ≤ sub32 t3 t1)
    (h5 : sub32 t5 t1 < dur) :
    triggerPulse t1 s0 = (⟨true, t1⟩, [Edge.assert]) ∧
    pulseUpdate t2 dur ⟨true, t1⟩ = (⟨true, t1⟩, []) ∧
    triggerPulse t2 ⟨true, t1⟩ = (⟨true, t1⟩, []) ∧
    pulseUpdate t5 dur ⟨true, t1⟩ = (⟨true, t1⟩, []) ∧
    pulseUpdate t3 dur ⟨true, t1⟩ = (⟨false, t1⟩, [Edge.deassert]) ∧
    pulseUpdate t4 dur ⟨false, t1⟩ = (⟨false, t1⟩, []) := by
  have h2' : ¬(dur ≤ sub32 t2 t1) := by omega
  have h5' : ¬(dur ≤ sub32 t5 t1) := by omega
  refine ⟨?_, ?_, ?_, ?_, ?_, ?_⟩
  · simp [triggerPulse, h0]
  · simp [pulseUpdate, h2']
  · simp [triggerPulse]
  · simp [pulseUpdate, h5']
  · simp [pulseUpdate, h3]
  · simp [pulseUpdate]

/-- Witness for C1 at concrete ticks: fire at 100 with duration 1000,
re-fire at 400, no deassert at 900, deassert at 1100, quiet at 1200. -/
theorem C1_fire_while_active_idempotent_witness :
    triggerPulse 100 ⟨false, 5⟩ = (⟨true, 100⟩, [Edge.assert]) ∧
    pulseUpdate 400 1000 ⟨true, 100⟩ = (⟨true, 100⟩, []) ∧
    triggerPulse 400 ⟨true, 100⟩ = (⟨true, 100⟩, []) ∧
    pulseUpdate 900 1000 ⟨true, 100⟩ = (⟨true, 100⟩, []) ∧
    pulseUpdate 1100 1000 ⟨true, 100⟩ = (⟨false, 100⟩, [Edge.deassert]) ∧
    pulseUpdate 1200 1000 ⟨false, 100⟩ = (⟨false, 100⟩, []) :=
  C1_fire_while_active_idempotent ⟨false, 5⟩ 100 400 1100 1200 900 1000
    rfl (by decide) (by decide) (by decide)

/-- C2: when the interval deadline is observed due (possibly late), the
engine fires and re-arms to the PREVIOUS deadline plus one period — the
new deadline does not depend on the current tick. -/
theorem C2_interval_rearm_from_previous_deadline (st : EngineSt) (now : Nat)
    (hen : st.intervalEnabled = true) (hpos : 0 < st.intervalSeconds)
    (hset : st.nextIntervalAt ≠ 0)
    (hdue : 0 ≤ signedOfU32 (sub32 now st.nextIntervalAt)) :
    intervalStep now st
      = ({ st with nextIntervalAt := add32 st.nextIntervalAt (mul32 st.intervalSeconds 1000) },
         true) := by
  simp [intervalStep, hen, hpos, hset, hdue]

/-- Witness for C2: period 10 s, deadline 50000 observed 3 s late at
53000; the next deadline is 60000, not 63000. -/
theorem C2_interval_rearm_from_previous_deadline_witness :
    intervalStep 53000
        { defaultEngineSt with intervalSeconds := 10, intervalEnabled := true,
                               nextIntervalAt := 50000 }
      = ({ defaultEngineSt with intervalSeconds := 10, intervalEnabled := true,
                                nextIntervalAt := 60000 }, true) :=
  C2_interval_rearm_from_previous_deadline
    { defaultEngineSt with intervalSeconds := 10, intervalEnabled := true,
                           nextIntervalAt := 50000 }
    53000 rfl (by decide) (by decide) (by decide)

/-- C3: in a pass where the local day-of-year differs from
`lastDayOfYear`, evaluating is the same as evaluating after resetting all
flags and recording the new day first (reset happens before the firing
check of the same pass); in particular two duplicate 08:00 entries with
stale true flags are both reset and both fire at 08:00:00 of the new day
(two fire requests in the pass). -/
theorem C3_day_rollover_resets_before_firing (nowUtc : Int) (tm : TmLocal) (st : EngineSt)
    (hnew : nowUtc ≠ st.lastTimeCheck) (hday : tm.yday ≠ st.lastDayOfYear) :
    scheduleStep nowUtc tm st
      = scheduleStep nowUtc tm
          { st with scheduleFiredToday := List.replicate st.scheduleTimes.length false,
                    lastDayOfYear := tm.yday } ∧
    (st.scheduleTimes = ["08:00", "08:00"] → st.scheduleFiredToday = [true, true] →
      tm.hour = 8 → tm.minute = 0 → tm.sec = 0 →
      scheduleStep nowUtc tm st
        = ({ st with lastTimeCheck := nowUtc, lastDayOfYear := tm.yday,
                     scheduleFiredToday := [true, true] }, 2)) := by
  obtain ⟨yd, hh, mm, ss⟩ := tm
  obtain ⟨a, b, c, d, e, f, g⟩ := st
  simp only at hnew hday
  constructor
  · simp [scheduleStep, hnew, hday]
  · intro ht hf h1 h2 h3
    simp only at ht hf h1 h2 h3
    subst ht hf h1 h2 h3
    simp only [scheduleStep, hnew, hday, if_neg, if_false]
    norm_num
    rw [show fireScan 480 ["08:00", "08:00"] (List.replicate 2 false) = ([true, true], 2)
          from by decide]
    exact ⟨rfl, rfl⟩

/-- Witness for C3 on concrete state: day 4 stale flags, new day 5 at
08:00:00 — both duplicate entries fire and both flags end set. -/
theorem C3_day_rollover_resets_before_firing_witness :
    scheduleStep 1 ⟨5, 8, 0, 0⟩
        { defaultEngineSt with lastDayOfYear := 4, scheduleTimes := ["08:00", "08:00"],
                               scheduleFiredToday := [true, true] }
      = ({ defaultEngineSt with lastTimeCheck := 1, lastDayOfYear := 5,
                                scheduleTimes := ["08:00", "08:00"],
                                scheduleFiredToday := [true, true] }, 2) :=
  (C3_day_rollover_resets_before_firing 1 ⟨5, 8, 0, 0⟩
      { defaultEngineSt with lastDayOfYear := 4, scheduleTimes := ["08:00", "08:00"],
                             scheduleFiredToday := [true, true] }
      (by decide) (by decide)).2 rfl rfl rfl rfl rfl

/-- C4: every schedule-mutating operation (MQTT ADD_SCHEDULE and
CLEAR_SCHEDULE, HTTP schedule add and remove) either leaves the schedule
and its flags untouched (rejected input) or rebuilds the flag list to
all-false with exactly the length of the new entry list; removing index 1
from a 3-entry list yields 2 entries with a fresh 2-element flag array. -/
theorem C4_flags_rebuilt_on_mutation (msg t idxArg : String) (now : Nat) (st : EngineSt)
    (hasTime hasIdx : Bool) :
    (((mqttCallback msg now st).1.scheduleTimes = st.scheduleTimes ∧
      (mqttCallback msg now st).1.scheduleFiredToday = st.scheduleFiredToday) ∨
      (mqttCallback msg now st).1.scheduleFiredToday
        = List.replicate (mqttCallback msg now st).1.scheduleTimes.length false) ∧
    ((handleScheduleAdd hasTime t st = st) ∨
      (handleScheduleAdd hasTime t st).scheduleFiredToday
        = List.replicate (handleScheduleAdd hasTime t st).scheduleTimes.length false) ∧
    ((handleScheduleRemove hasIdx idxArg st = st) ∨
      (handleScheduleRemove hasIdx idxArg st).scheduleFiredToday
        = List.replicate (handleScheduleRemove hasIdx idxArg st).scheduleTimes.length false) ∧
    handleScheduleRemove true "1"
        { defaultEngineSt with scheduleTimes := ["07:00", "08:00", "09:00"],
                               scheduleFiredToday := [true, false, true] }
      = { defaultEngineSt with scheduleTimes := ["07:00", "09:00"],
                               scheduleFiredToday := [false, false] } := by
  refine ⟨?_, ?_, ?_, by decide⟩
  · simp only [mqttCallback]
    split_ifs <;> simp
  · simp only [handleScheduleAdd]
    split_ifs <;> simp
  · simp only [handleScheduleRemove]
    split_ifs <;> simp

/-- Pointwise characterization of the firing loop: when the two lists are
aligned, an entry's flag after the pass is its old flag OR-ed with the
eligibility test (parses, and equals the current minute). -/
lemma fireScan_getD (cm : Int) :
    ∀ (ts : List String) (fs : List Bool) (j : Nat), ts.length = fs.length →
    (fireScan cm ts fs).1.getD j false
      = (fs.getD j false ||
         (decide (j < ts.length) &&
          (decide (0 ≤ parseTimeToMinutes (ts.getD j "")) &&
           decide (parseTimeToMinutes (ts.getD j "") = cm)))) := by
  intro ts
  induction ts with
  | nil =>
    intro fs j hlen
    simp [fireScan]
  | cons t ts ih =>
    intro fs j hlen
    cases fs with
    | nil => simp at hlen
    | cons f fs =>
      have hlen' : ts.length = fs.length := by simpa using hlen
      by_cases hC : 0 ≤ parseTimeToMinutes t ∧ f = false ∧ parseTimeToMinutes t = cm
      · obtain ⟨ha, hb, hc⟩ := hC
        subst hb
        subst hc
        cases j with
        | zero => simp [fireScan, ha]
        | succ j =>
          simp [fireScan, ha]
          simpa using ih fs j hlen'
      · cases j with
        | zero =>
          simp only [fireScan, if_neg hC]
          cases f with
          | true => simp
          | false =>
            have : ¬(0 ≤ parseTimeToMinutes t ∧ parseTimeToMinutes t = cm) := by
              intro h
              exact hC ⟨h.1, rfl, h.2⟩
            simp only [List.getD_cons_zero, List.getD]
            simp [this]
            omega
        | succ j =>
          simp only [fireScan, if_neg hC]
          simpa using ih fs j hlen'

/-- Count characterization of the firing loop: the number of fire
requests in a pass is the number of aligned entries that parse, have a
clear flag, and equal the current minute. -/
lemma fireScan_count (cm : Int) :
    ∀ (ts : List String) (fs : List Bool), ts.length = fs.length →
    (fireScan cm ts fs).2
      = List.countP
          (fun p => decide (0 ≤ parseTimeToMinutes p.1) && !p.2 &&
                    decide (parseTimeToMinutes p.1 = cm))
          (ts.zip fs) := by
  intro ts
  induction ts with
  | nil =>
    intro fs hlen
    simp [fireScan]
  | cons t ts ih =>
    intro fs hlen
    cases fs with
    | nil => simp at hlen
    | cons f fs =>
      have hlen' : ts.length = fs.length := by simpa using hlen
      by_cases hC : 0 ≤ parseTimeToMinutes t ∧ f = false ∧ parseTimeToMinutes t = cm
      · obtain ⟨ha, hb, hc⟩ := hC
        subst hb
        subst hc
        simp [fireScan, List.countP_cons, ha, ih fs hlen']
      · simp only [fireScan, if_neg hC]
        rw [List.zip_cons_cons, List.countP_cons]
        have hz : (decide (0 ≤ parseTimeToMinutes t) && !f &&
                   decide (parseTimeToMinutes t = cm)) = false := by
          cases f with
          | true => simp
          | false =>
            have : ¬(0 ≤ parseTimeToMinutes t ∧ parseTimeToMinutes t = cm) := by
              intro h
              exact hC ⟨h.1, rfl, h.2⟩
            simp at this ⊢
            omega
        simp [hz, ih fs hlen']

/-- Example state for the C5 witness: one 08:00 entry, not yet fired. -/
def exSchedSt : EngineSt :=
  { defaultEngineSt with lastDayOfYear := 5, scheduleTimes := ["08:00"],
                         scheduleFiredToday := [false] }

/-- C5: the schedule evaluator runs at most once per distinct wall-clock
second (running it again with the same second is a no-op with zero
fires); no entry fires in a pass whose local second is nonzero; and in a
firing pass an entry's flag becomes its old flag OR-ed with its
eligibility (parses, clear flag, matching hour and minute), while the
fire count counts exactly the eligible entries — so a flag set by firing
stays set and the entry fires at most once per local day. -/
theorem C5_schedule_once_per_second (nowUtc : Int) (tm tm2 : TmLocal) (st : EngineSt) (j : Nat) :
    scheduleStep nowUtc tm2 (scheduleStep nowUtc tm st).1 = ((scheduleStep nowUtc tm st).1, 0) ∧
    (tm.sec ≠ 0 → (scheduleStep nowUtc tm st).2 = 0) ∧
    (nowUtc ≠ st.lastTimeCheck → tm.yday = st.lastDayOfYear → tm.sec = 0 →
      st.scheduleTimes.length = st.scheduleFiredToday.length →
      ((scheduleStep nowUtc tm st).1.scheduleFiredToday.getD j false
         = (st.scheduleFiredToday.getD j false ||
            (decide (j < st.scheduleTimes.length) &&
             (decide (0 ≤ parseTimeToMinutes (st.scheduleTimes.getD j "")) &&
              decide (parseTimeToMinutes (st.scheduleTimes.getD j "")
                        = tm.hour * 60 + tm.minute)))) ∧
       (scheduleStep nowUtc tm st).2
         = List.countP
             (fun p => decide (0 ≤ parseTimeToMinutes p.1) && !p.2 &&
                       decide (parseTimeToMinutes p.1 = tm.hour * 60 + tm.minute))
             (st.scheduleTimes.zip st.scheduleFiredToday))) := by
  refine ⟨?_, ?_, ?_⟩
  · by_cases h : nowUtc = st.lastTimeCheck
    · simp [scheduleStep, h]
    · have hl : (scheduleStep nowUtc tm st).1.lastTimeCheck = nowUtc := by
        simp only [scheduleStep, if_neg h]
        split_ifs <;> rfl
      generalize hg : (scheduleStep nowUtc tm st).1 = r at hl ⊢
      simp [scheduleStep, hl]
  · intro hs
    simp only [scheduleStep]
    split_ifs <;> simp_all
  · intro h1 h2 h3 hlen
    constructor
    · simp only [scheduleStep, if_neg h1, h2, if_pos, h3, if_true]
      simpa using fireScan_getD (tm.hour * 60 + tm.minute) st.scheduleTimes
        st.scheduleFiredToday j hlen
    · simp only [scheduleStep, if_neg h1, h2, if_pos, h3, if_true]
      simpa using fireScan_count (tm.hour * 60 + tm.minute) st.scheduleTimes
        st.scheduleFiredToday hlen

/-- Witness for C5 on concrete state: a pass at 08:00:00 fires the single
entry once, and re-running the evaluator within the same second is a
no-op with zero fires. -/
theorem C5_schedule_once_per_second_witness :
    scheduleStep 1 ⟨5, 8, 0, 1⟩ (scheduleStep 1 ⟨5, 8, 0, 0⟩ exSchedSt).1
      = ((scheduleStep 1 ⟨5, 8, 0, 0⟩ exSchedSt).1, 0) ∧
    (scheduleStep 1 ⟨5, 8, 0, 0⟩ exSchedSt).1.scheduleFiredToday.getD 0 false = true ∧
    (scheduleStep 1 ⟨5, 8, 0, 0⟩ exSchedSt).2 = 1 := by
  have h := C5_schedule_once_per_second 1 ⟨5, 8, 0, 0⟩ ⟨5, 8, 0, 1⟩ exSchedSt 0
  have hc := h.2.2 (by decide) rfl rfl (by decide)
  refine ⟨h.1, ?_, ?_⟩
  · rw [hc.1]
    decide
  · rw [hc.2]
    decide

/-- C6 counterexample: "INTERVAL:-5" does not parse to a positive
integer, yet it is NOT rejected — `toInt()` yields -5, the assignment to
`uint32_t` wraps it to 4294967291, which passes the `s > 0` test and is
installed with the interval enabled. -/
theorem C6_command_validation_counterexample :
    (mqttCallback "INTERVAL:-5" 0 defaultEngineSt).1.intervalEnabled = true ∧
    (mqttCallback "INTERVAL:-5" 0 defaultEngineSt).1.intervalSeconds = 4294967291 := by
  decide

/-- C6 amended: INTERVAL:0 and non-numeric INTERVAL payloads (parsing to
0) are rejected with no state change; INTERVAL:30 sets the period to 30,
enables, and re-arms from the current tick; ADD_SCHEDULE:25:00 is
rejected with no change; ADD_SCHEDULE:08:05 is appended with flags
rebuilt. (Negative INTERVAL payloads, however, wrap to large positive
values and are accepted — see the counterexample.) -/
theorem C6_command_validation_amended (st : EngineSt) (now : Nat) :
    mqttCallback "INTERVAL:0" now st = (st, false) ∧
    mqttCallback "INTERVAL:abc" now st = (st, false) ∧
    (mqttCallback "INTERVAL:30" now st).1.intervalSeconds = 30 ∧
    (mqttCallback "INTERVAL:30" now st).1.intervalEnabled = true ∧
    (mqttCallback "INTERVAL:30" now st).1.nextIntervalAt = add32 now 30000 ∧
    mqttCallback "ADD_SCHEDULE:25:00" now st = (st, false) ∧
    (mqttCallback "ADD_SCHEDULE:08:05" now st).1.scheduleTimes
      = st.scheduleTimes ++ ["08:05"] ∧
    (mqttCallback "ADD_SCHEDULE:08:05" now st).1.scheduleFiredToday
      = List.replicate (st.scheduleTimes.length + 1) false := by
  refine ⟨rfl, rfl, rfl, rfl, rfl, rfl, rfl, ?_⟩
  rw [show (mqttCallback "ADD_SCHEDULE:08:05" now st).1.scheduleFiredToday
        = List.replicate (st.scheduleTimes ++ ["08:05"]).length false from rfl]
  simp

/-- A deadline armed exactly one period (at most 2^31 ticks) ahead of the
current tick is not yet due at that tick, so the arming step fires
nothing. -/
lemma intervalStep_no_immediate_fire (st2 : EngineSt) (now : Nat)
    (hN : st2.nextIntervalAt = add32 now (mul32 st2.intervalSeconds 1000))
    (h1 : 0 < mul32 st2.intervalSeconds 1000)
    (h2 : mul32 st2.intervalSeconds 1000 ≤ 2147483648) :
    intervalStep now st2 = (st2, false) := by
  by_cases hE : st2.intervalEnabled = true ∧ 0 < st2.intervalSeconds
  · by_cases hz : st2.nextIntervalAt = 0
    · simp only [intervalStep, if_pos hE, if_pos hz, ← hN]
    · have hneg := signed_sub32_add_right now (mul32 st2.intervalSeconds 1000) h1 h2
      rw [← hN] at hneg
      simp only [intervalStep, if_pos hE, if_neg hz]
      rw [if_neg (by omega)]
  · simp [intervalStep, hE]

/-- C7: while the interval is disabled or the period is 0, the per-tick
interval evaluation changes nothing and fires nothing (an unset deadline
stays unset); STOP_INTERVAL only clears the enabled flag; re-enabling
with INTERVAL:30 arms the deadline a full period from the current tick
regardless of any stale deadline, and evaluating at that same tick does
not fire; the HTTP interval form likewise arms from the current tick
whenever it enables. -/
theorem C7_disabled_interval_inert (st : EngineSt) (now : Nat) (sArg : String) (en : Bool)
    (h : st.intervalEnabled = false ∨ st.intervalSeconds = 0) :
    intervalStep now st = (st, false) ∧
    (mqttCallback "STOP_INTERVAL" now st).1 = { st with intervalEnabled := false } ∧
    (mqttCallback "INTERVAL:30" now (mqttCallback "STOP_INTERVAL" now st).1).1.nextIntervalAt
      = add32 now 30000 ∧
    intervalStep now (mqttCallback "INTERVAL:30" now (mqttCallback "STOP_INTERVAL" now st).1).1
      = ((mqttCallback "INTERVAL:30" now (mqttCallback "STOP_INTERVAL" now st).1).1, false) ∧
    ((handleIntervalPost true sArg en now st).intervalEnabled = true →
      (handleIntervalPost true sArg en now st).nextIntervalAt
        = add32 now (mul32 (toUInt32N (atolL sArg.toList)) 1000)) := by
  refine ⟨?_, rfl, rfl, ?_, ?_⟩
  · rcases h with h | h
    · simp [intervalStep, h]
    · simp [intervalStep, h]
  · exact intervalStep_no_immediate_fire _ now rfl
      (show 0 < mul32 30 1000 by norm_num [mul32, M32])
      (show mul32 30 1000 ≤ 2147483648 by norm_num [mul32, M32])
  · have hx : ¬((true : Bool) = false) := by simp
    simp only [handleIntervalPost, if_neg hx]
    split_ifs with h2
    · intro _
      rfl
    · intro hEn
      exact absurd hEn h2

/-- Witness for C7: disabled default state; re-enable via INTERVAL:30 and
the HTTP form at tick 0 arms deadline 30000 and does not fire at once. -/
theorem C7_disabled_interval_inert_witness :
    intervalStep 0 defaultEngineSt = (defaultEngineSt, false) ∧
    (mqttCallback "INTERVAL:30" 0 (mqttCallback "STOP_INTERVAL" 0 defaultEngineSt).1).1.nextIntervalAt
      = 30000 ∧
    intervalStep 0 (mqttCallback "INTERVAL:30" 0 (mqttCallback "STOP_INTERVAL" 0 defaultEngineSt).1).1
      = ((mqttCallback "INTERVAL:30" 0 (mqttCallback "STOP_INTERVAL" 0 defaultEngineSt).1).1, false) ∧
    (handleIntervalPost true "30" true 0 defaultEngineSt).nextIntervalAt = 30000 := by
  have h := C7_disabled_interval_inert defaultEngineSt 0 "30" true (Or.inl rfl)
  refine ⟨h.1, ?_, h.2.2.2.1, ?_⟩
  · rw [h.2.2.1]
    decide
  · rw [h.2.2.2.2 (by decide)]
    decide

/-- C8 counterexample: loading a stored document carrying
`intervalEnabled=true` with `intervalSeconds=0` is accepted verbatim by
`loadConfig`, admitting the very state the claim says is never admitted. -/
theorem C8_interval_invariant_counterexample :
    (loadConfigInterval (some 0) (some true) defaultEngineSt).intervalEnabled = true ∧
    (loadConfigInterval (some 0) (some true) defaultEngineSt).intervalSeconds = 0 := by
  decide

/-- C8 amended: the MQTT command path and the HTTP interval form do
maintain `intervalEnabled = true → intervalSeconds > 0`; `loadConfig`
copies the stored fields verbatim and can violate it, but the per-tick
interval evaluation independently requires a positive period, so the
loaded state stays inert. -/
theorem C8_interval_invariant_amended (msg sArg : String) (now : Nat) (st : EngineSt)
    (hasSec hasEn : Bool)
    (hinv : st.intervalEnabled = true → 0 < st.intervalSeconds) :
    ((mqttCallback msg now st).1.intervalEnabled = true →
      0 < (mqttCallback msg now st).1.intervalSeconds) ∧
    ((handleIntervalPost hasSec sArg hasEn now st).intervalEnabled = true →
      0 < (handleIntervalPost hasSec sArg hasEn now st).intervalSeconds) ∧
    (st.intervalSeconds = 0 → intervalStep now st = (st, false)) := by
  refine ⟨?_, ?_, ?_⟩
  · simp only [mqttCallback]
    split_ifs <;> simp_all
  · simp only [handleIntervalPost]
    split_ifs with hA hB
    · exact hinv
    · intro _
      simp only [Bool.and_eq_true, decide_eq_true_eq] at hB
      exact hB.2
    · intro hEn
      exact absurd hEn hB
  · intro h0
    simp [intervalStep, h0]

/-- Witness for C8 amended at the default (disabled) state with a
TRIGGER message and the HTTP form posting 30 seconds. -/
theorem C8_interval_invariant_amended_witness :
    ((mqttCallback "TRIGGER" 0 defaultEngineSt).1.intervalEnabled = true →
      0 < (mqttCallback "TRIGGER" 0 defaultEngineSt).1.intervalSeconds) ∧
    ((handleIntervalPost true "30" true 0 defaultEngineSt).intervalEnabled = true →
      0 < (handleIntervalPost true "30" true 0 defaultEngineSt).intervalSeconds) ∧
    (defaultEngineSt.intervalSeconds = 0 →
      intervalStep 0 defaultEngineSt = (defaultEngineSt, false)) :=
  C8_interval_invariant_amended "TRIGGER" "30" 0 defaultEngineSt true true (by decide)

/-- C9: both tick-domain checks are wraparound-safe. The pulse test
deasserts exactly when the true elapsed time reaches the duration, and
the signed interval test reports due exactly for offsets at or past the
deadline (up to half the counter range), both even across a counter wrap;
the closing conjuncts show a wrapped instance where the raw values have
decreased so a plain greater-than comparison would answer wrongly. -/
theorem C9_wraparound_safe_comparisons (start e dur dl k k2 secs : Nat)
    (hs : start < M32) (he : e < M32) (hdl : dl < M32) (hdl0 : dl ≠ 0)
    (hsecs : 0 < secs) (hk : k < 2147483648) (hk2a : 0 < k2) (hk2b : k2 ≤ 2147483648) :
    ((pulseUpdate ((start + e) % M32) dur ⟨true, start⟩).2 = [Edge.deassert] ↔ dur ≤ e) ∧
    (intervalStep ((dl + k) % M32)
        { defaultEngineSt with intervalEnabled := true, intervalSeconds := secs,
                               nextIntervalAt := dl }).2 = true ∧
    (intervalStep ((dl + (M32 - k2)) % M32)
        { defaultEngineSt with intervalEnabled := true, intervalSeconds := secs,
                               nextIntervalAt := dl }).2 = false ∧
    (sub32 500 (M32 - 500) = 1000 ∧ ¬(M32 - 500 ≤ 500)) ∧
    (signedOfU32 (sub32 50 (M32 - 100)) = 150 ∧ ¬(M32 - 100 ≤ 50)) := by
  have hsub1 := sub32_shift start e hs he
  refine ⟨?_, ?_, ?_, by decide, by decide⟩
  · simp only [pulseUpdate, hsub1]
    constructor
    · intro hEq
      by_cases hle : dur ≤ e
      · exact hle
      · simp [hle] at hEq
    · intro hle
      simp [hle]
  · have hkM : k < M32 := by simp only [M32]; omega
    have hsub := sub32_shift dl k hdl hkM
    have hsig : 0 ≤ signedOfU32 k := by
      have : (0 : Int) ≤ signedOfU32 k := by
        simp only [signedOfU32, M32]
        split <;> omega
      exact this
    simp [intervalStep, hsecs, hdl0, hsub, hsig]
  · have hM : M32 - k2 < M32 := by simp only [M32]; omega
    have hsub := sub32_shift dl (M32 - k2) hdl hM
    have hneg : signedOfU32 (M32 - k2) < 0 := by
      simp only [signedOfU32, M32] at *
      split <;> omega
    have hsig : ¬(0 ≤ signedOfU32 (M32 - k2)) := by omega
    simp [intervalStep, hsecs, hdl0, hsub, hsig]

/-- Witness for C9 at a wrap boundary: a pulse started 500 ticks before
the wrap and checked 1000 ticks later, and a deadline 100 ticks before
the wrap observed 150 ticks after it (due) and 100 ticks before it (not
due). -/
theorem C9_wraparound_safe_comparisons_witness :
    ((pulseUpdate ((4294966796 + 1000) % M32) 700 ⟨true, 4294966796⟩).2
        = [Edge.deassert] ↔ 700 ≤ 1000) ∧
    (intervalStep ((4294967196 + 150) % M32)
        { defaultEngineSt with intervalEnabled := true, intervalSeconds := 10,
                               nextIntervalAt := 4294967196 }).2 = true ∧
    (intervalStep ((4294967196 + (M32 - 100)) % M32)
        { defaultEngineSt with intervalEnabled := true, intervalSeconds := 10,
                               nextIntervalAt := 4294967196 }).2 = false ∧
    (sub32 500 (M32 - 500) = 1000 ∧ ¬(M32 - 500 ≤ 500)) ∧
    (signedOfU32 (sub32 50 (M32 - 100)) = 150 ∧ ¬(M32 - 100 ≤ 50)) :=
  C9_wraparound_safe_comparisons 4294966796 1000 700 4294967196 150 100 10
    (by decide) (by decide) (by decide) (by decide) (by decide) (by decide)
    (by decide) (by decide)

/-- C10 counterexample: the lowercase form "interval:10" does NOT have
the same effect as "INTERVAL:10" — `startsWith` is case-sensitive, so the
lowercase command falls through and is silently ignored, while the
uppercase one enables the interval. -/
theorem C10_case_sensitivity_counterexample :
    mqttCallback "interval:10" 0 defaultEngineSt = (defaultEngineSt, false) ∧
    (mqttCallback "INTERVAL:10" 0 defaultEngineSt).1.intervalEnabled = true := by
  decide

/-- C10 amended: keyword matching is case-insensitive only for the
whole-message commands TRIGGER, STOP_INTERVAL and CLEAR_SCHEDULE; the
prefix commands INTERVAL: and ADD_SCHEDULE: require the upper-case
spelling and their lowercase forms are silently ignored, as is any
unrecognized text (no state change, no fire request). -/
theorem C10_keyword_case_amended (st : EngineSt) (now : Nat) :
    mqttCallback "trigger" now st = mqttCallback "TRIGGER" now st ∧
    mqttCallback "TrIgGeR" now st = mqttCallback "TRIGGER" now st ∧
    mqttCallback "stop_interval" now st = mqttCallback "STOP_INTERVAL" now st ∧
    mqttCallback "clear_schedule" now st = mqttCallback "CLEAR_SCHEDULE" now st ∧
    mqttCallback "interval:10" now st = (st, false) ∧
    mqttCallback "add_schedule:08:00" now st = (st, false) ∧
    mqttCallback "NOT_A_COMMAND" now st = (st, false) :=
  ⟨rfl, rfl, rfl, rfl, rfl, rfl, rfl⟩
